import Mathlib

/-!
Verification development for src/backend/services/ImageProcessingService.py
(class ImageProcessingService).

The external image codec (PIL) is modelled as an oracle record `Codec`:
decoding, encode-and-measure, EXIF transposition, Lanczos resampling,
alpha compositing and the final file write are uninterpreted functions
supplied by the oracle; theorems quantify over the oracle unless they
instantiate a concrete one.  Machine-real arithmetic (float division for
resize ratios) is modelled as exact natural/rational arithmetic with
explicit floor, and the float expression int(dim * sqrt(target / size))
of _process_auto_mode is abstracted as the oracle field scaledDim, since
the code applies its own max-floors and strict-decrease guard on top of
that value.  Python dictionaries carrying the settings are modelled twice:
as a typed record (the value-level pipeline) and, for the aliasing
behaviour of the shallow copy {**DEFAULT_SETTINGS}, as a small heap of the
four nested default dicts together with shared/owned pointers.
-/

namespace ImageProc

/-- Result of str(e) and type(e).d.name for a caught Python exception. -/
structure PyErr where
  msg : String
  kind : String
deriving Repr, DecidableEq

/-- A PIL image: dimensions, the originating format (PIL has None for
images created in memory), the color mode string, whether auxiliary
metadata (EXIF etc.) is attached, an abstract pixel-content identifier,
and whether the object carries a truthy is_animated attribute. -/
structure Img where
  width : Nat
  height : Nat
  format : Option String
  mode : String
  meta : Bool
  pix : Nat
  animated : Bool
deriving Repr, DecidableEq

/-- The input argument of process_image: a file path (with stem) or an
in-memory byte stream; `bytes` is the raw byte length of the input, which
the code never reads. -/
inductive InputSrc where
  | filePath (stem : String) (bytes : Nat)
  | memStream (bytes : Nat)
deriving Repr, DecidableEq

/-- Keyword arguments passed to PIL save, as built by _get_save_kwargs. -/
structure SaveKwargs where
  quality : Option Nat
  optimize : Option Bool
  progressive : Option Bool
deriving Repr, DecidableEq

/-- Oracle for the external collaborators of the service.  encSize fmt q i
is the byte length of encoding image i to format fmt at optional quality q
(an in-memory BytesIO save); scaledDim i target size is the pair
(int(w * sqrt(target / size)), int(h * sqrt(target / size))) computed by
the auto-mode resize step before the 300/200 floors are applied;
exifTranspose returns none when ImageOps.exif_transpose raises (the code
swallows that and keeps the input image); saveFile returns the byte size
of the written file (stat) or the exception it raised. -/
structure Codec where
  decode : InputSrc → Except PyErr Img
  encSize : String → Option Nat → Img → Nat
  exifTranspose : Img → Option Img
  resample : Nat → Nat → Img → Nat
  compositeWhite : Img → Nat
  scaledDim : Img → Int → Nat → Nat × Nat
  saveFile : String → Img → String → SaveKwargs → Bool → Except PyErr Nat
  uuidHex : String
  timestampMs : Nat
  outputDir : String

/-- The compression section of the settings dict. -/
structure Compression where
  enabled : Bool
  quality : Nat
  maxWidth : Nat
  maxHeight : Nat
deriving Repr, DecidableEq

/-- The format section of the settings dict. -/
structure FormatSettings where
  outputFormat : String
  convertToWebp : Bool
deriving Repr, DecidableEq

/-- The optimization section of the settings dict. -/
structure Optimization where
  removeMetadata : Bool
  progressive : Bool
  autoOrient : Bool
deriving Repr, DecidableEq

/-- The resize section of the settings dict.  width/height are None or an
integer in the source; Python truthiness treats both None and 0 as unset. -/
structure ResizeSettings where
  enabled : Bool
  width : Option Nat
  height : Option Nat
  maintainAspectRatio : Bool
deriving Repr, DecidableEq

/-- The full merged settings dict.  targetFileSize is an Int because the
caller may pass any number, including non-positive ones. -/
structure Settings where
  mode : String
  targetFileSize : Int
  compression : Compression
  format : FormatSettings
  optimization : Optimization
  resize : ResizeSettings
deriving Repr, DecidableEq

/-- Class attribute DEFAULT_SETTINGS of ImageProcessingService. -/
def DEFAULT_SETTINGS : Settings :=
  { mode := "auto"
    targetFileSize := 150 * 1024
    compression := { enabled := true, quality := 85, maxWidth := 1920, maxHeight := 1080 }
    format := { outputFormat := "webp", convertToWebp := true }
    optimization := { removeMetadata := true, progressive := true, autoOrient := true }
    resize := { enabled := false, width := none, height := none, maintainAspectRatio := true } }

/-- Caller override for the compression section (fields absent from the
caller's dict are none). -/
structure CompressionOv where
  enabled : Option Bool := none
  quality : Option Nat := none
  maxWidth : Option Nat := none
  maxHeight : Option Nat := none
deriving Repr, DecidableEq

/-- Caller override for the format section. -/
structure FormatOv where
  outputFormat : Option String := none
  convertToWebp : Option Bool := none
deriving Repr, DecidableEq

/-- Caller override for the optimization section. -/
structure OptimizationOv where
  removeMetadata : Option Bool := none
  progressive : Option Bool := none
  autoOrient : Option Bool := none
deriving Repr, DecidableEq

/-- Caller override for the resize section.  The outer Option is key
presence in the caller's dict, the inner Option is the stored value
(which may itself be None). -/
structure ResizeOv where
  enabled : Option Bool := none
  width : Option (Option Nat) := none
  height : Option (Option Nat) := none
  maintainAspectRatio : Option Bool := none
deriving Repr, DecidableEq

/-- Caller override for the whole settings dict: a section that is present
is itself deep-merged, a section that is absent keeps the default. -/
structure Override where
  mode : Option String := none
  targetFileSize : Option Int := none
  compression : Option CompressionOv := none
  format : Option FormatOv := none
  optimization : Option OptimizationOv := none
  resize : Option ResizeOv := none
deriving Repr, DecidableEq

/-- Action of _deep_merge on the compression section. -/
def mergeCompression (d : Compression) (o : CompressionOv) : Compression :=
  { enabled := o.enabled.getD d.enabled
    quality := o.quality.getD d.quality
    maxWidth := o.maxWidth.getD d.maxWidth
    maxHeight := o.maxHeight.getD d.maxHeight }

/-- Action of _deep_merge on the format section. -/
def mergeFormat (d : FormatSettings) (o : FormatOv) : FormatSettings :=
  { outputFormat := o.outputFormat.getD d.outputFormat
    convertToWebp := o.convertToWebp.getD d.convertToWebp }

/-- Action of _deep_merge on the optimization section. -/
def mergeOptimization (d : Optimization) (o : OptimizationOv) : Optimization :=
  { removeMetadata := o.removeMetadata.getD d.removeMetadata
    progressive := o.progressive.getD d.progressive
    autoOrient := o.autoOrient.getD d.autoOrient }

/-- Action of _deep_merge on the resize section. -/
def mergeResize (d : ResizeSettings) (o : ResizeOv) : ResizeSettings :=
  { enabled := o.enabled.getD d.enabled
    width := o.width.getD d.width
    height := o.height.getD d.height
    maintainAspectRatio := o.maintainAspectRatio.getD d.maintainAspectRatio }

/-- Action of _deep_merge on the settings schema: both sides nested dicts
at a section key recurse; scalar keys are replaced wholesale; absent keys
keep defaults.  (The generic _deep_merge itself is embedded separately as
deep_merge on PyVal dictionaries.) -/
def merge_settings (d : Settings) (o : Override) : Settings :=
  { mode := o.mode.getD d.mode
    targetFileSize := o.targetFileSize.getD d.targetFileSize
    compression := match o.compression with
      | none => d.compression
      | some co => mergeCompression d.compression co
    format := match o.format with
      | none => d.format
      | some fo => mergeFormat d.format fo
    optimization := match o.optimization with
      | none => d.optimization
      | some oo => mergeOptimization d.optimization oo
    resize := match o.resize with
      | none => d.resize
      | some ro => mergeResize d.resize ro }

/-- Python `x or d` for an optional string: None and the empty string are
falsy. -/
def pyOrStr (o : Option String) (d : String) : String :=
  match o with
  | none => d
  | some s => if s.isEmpty then d else s

/-- Python truthiness of an optional integer: None and 0 are falsy. -/
def truthyN (o : Option Nat) : Bool :=
  match o with
  | none => false
  | some n => !(n == 0)

/-- Python `x or d` for an optional integer. -/
def pyOrNat (o : Option Nat) (d : Nat) : Nat :=
  match o with
  | none => d
  | some n => if n == 0 then d else n

/-- Python str.lower(), character-wise; for the ASCII format names this
code passes through it, Char.toLower agrees with Python. -/
def pyLower (s : String) : String :=
  ⟨s.data.map Char.toLower⟩

/-- Class attribute OUTPUT_FORMATS: the requested-name to concrete-format
mapping; the key original stores None (keep original format). -/
def OUTPUT_FORMATS : List (String × Option String) :=
  [("jpeg", some "JPEG"), ("jpg", some "JPEG"), ("png", some "PNG"),
   ("webp", some "WEBP"), ("gif", some "GIF"), ("original", none)]

/-- Method _determine_output_format.  The requested name is lowercased;
"original" returns the input's own format, falling back to JPEG when that
is None or empty (Python `original_format or 'JPEG'`); any other name is
looked up in OUTPUT_FORMATS with default WEBP.  The stored-None case of
the dict lookup is unreachable at this point (the key original was
handled by the early return), so it is collapsed to the same WEBP
default. -/
def determine_output_format (original_format : Option String) (format_settings : FormatSettings) : String :=
  let output_format := pyLower format_settings.outputFormat
  if output_format == "original" then
    pyOrStr original_format "JPEG"
  else
    ((OUTPUT_FORMATS.lookup output_format).getD (some "WEBP")).getD "WEBP"

/-- Method _get_save_kwargs: JPEG/WEBP get quality and optimize (JPEG also
progressive from the settings); PNG gets optimize only; anything else gets
no kwargs. -/
def get_save_kwargs (output_format : String) (settings : Settings) : SaveKwargs :=
  if output_format == "JPEG" || output_format == "WEBP" then
    { quality := some settings.compression.quality
      optimize := some true
      progressive := if output_format == "JPEG" then some settings.optimization.progressive else none }
  else if output_format == "PNG" then
    { quality := none, optimize := some true, progressive := none }
  else
    { quality := none, optimize := none, progressive := none }

/-- Method _auto_orient: ImageOps.exif_transpose, returning the input
unchanged when the transform raises. -/
def auto_orient (c : Codec) (image : Img) : Img :=
  match c.exifTranspose image with
  | some i => i
  | none => image

/-- PIL Image.resize with LANCZOS: new dimensions, resampled pixels; the
returned object is a fresh image with format None and no is_animated
attribute. -/
def py_resize (c : Codec) (image : Img) (nw nh : Nat) : Img :=
  { image with
    width := nw
    height := nh
    pix := c.resample nw nh image
    format := none
    animated := false }

/-- Method _resize_image.  Python float ratios are modelled as exact
rationals, so int(h * (tw / w)) becomes h * tw / w in floored natural
division (and w * (tw / w) becomes exactly tw); min(tw / w, th / h)
selects the first ratio iff tw * h is at most th * w. -/
def resize_image (c : Codec) (image : Img) (resize_settings : ResizeSettings) : Img :=
  let target_width := resize_settings.width
  let target_height := resize_settings.height
  let maintain_aspect := resize_settings.maintainAspectRatio
  if !truthyN target_width && !truthyN target_height then
    image
  else
    let current_width := image.width
    let current_height := image.height
    let dims : Nat × Nat :=
      if maintain_aspect then
        if truthyN target_width && truthyN target_height then
          let tw := target_width.getD 0
          let th := target_height.getD 0
          if tw * current_height ≤ th * current_width then
            (current_width * tw / current_width, current_height * tw / current_width)
          else
            (current_width * th / current_height, current_height * th / current_height)
        else if truthyN target_width then
          let tw := target_width.getD 0
          (tw, current_height * tw / current_width)
        else
          let th := target_height.getD 0
          (current_width * th / current_height, th)
      else
        (pyOrNat target_width current_width, pyOrNat target_height current_height)
    py_resize c image dims.1 dims.2

/-- Method _compress_image: bounding-box resize when either dimension
exceeds the configured maximum, with the same exact-rational modelling of
the float ratio as resize_image. -/
def compress_image (c : Codec) (image : Img) (compression_settings : Compression) : Img :=
  let max_width := compression_settings.maxWidth
  let max_height := compression_settings.maxHeight
  let current_width := image.width
  let current_height := image.height
  if current_width ≤ max_width ∧ current_height ≤ max_height then
    image
  else
    if max_width * current_height ≤ max_height * current_width then
      py_resize c image (current_width * max_width / current_width)
        (current_height * max_width / current_width)
    else
      py_resize c image (current_width * max_height / current_height)
        (current_height * max_height / current_height)

/-- The metadata-removal block of process_image (lines 157-170): an image
whose mode is RGBA or LA is pasted onto a fresh opaque white RGB
background using its own alpha band as mask (alpha is dropped); any other
image is rebuilt via Image.new and putdata with identical pixel content.
Both branches yield a fresh image without auxiliary metadata. -/
def strip_metadata (c : Codec) (image : Img) : Img :=
  if image.mode == "RGBA" || image.mode == "LA" then
    { width := image.width
      height := image.height
      format := none
      mode := "RGB"
      meta := false
      pix := c.compositeWhite image
      animated := false }
  else
    { width := image.width
      height := image.height
      format := none
      mode := image.mode
      meta := false
      pix := image.pix
      animated := false }

/-- Method _get_image_size: re-encode the image in its own format (JPEG
when image.format is None) into an in-memory buffer and return the byte
length of that buffer. -/
def get_image_size (c : Codec) (image : Img) : Nat :=
  c.encSize (pyOrStr image.format "JPEG") none image

/-- The pre-iteration stage of _process_auto_mode: auto-orient, then scale
down so that the larger dimension is at most 2048 when either exceeds it
(ratio = min(2048 / w, 2048 / h), exact-rational model as in
resize_image). -/
def auto_pre_image (c : Codec) (image0 : Img) : Img :=
  let image := auto_orient c image0
  let width := image.width
  let height := image.height
  if width > 2048 || height > 2048 then
    if height ≤ width then
      py_resize c image (width * 2048 / width) (height * 2048 / width)
    else
      py_resize c image (width * 2048 / height) (height * 2048 / height)
  else
    image

/-- The `for iteration in range(max_iterations)` loop of
_process_auto_mode, with fuel 10.  Returns the final image, the final
quality, and the number of encode-and-measure rounds performed.  The
comparison size > target * 1.5 is taken exactly (2 * size > 3 * target
over Int); the float sqrt scaling is the oracle scaledDim, to which the
code applies the 300/200 floors and the strict-shrink guard itself. -/
def autoLoop (c : Codec) (target_size : Int) : Nat → Img → Nat → Img × Nat × Nat
  | 0, image, quality => (image, quality, 0)
  | fuel + 1, image, quality =>
    let current_size := c.encSize "WEBP" (some quality) image
    if (current_size : Int) ≤ target_size then
      (image, quality, 1)
    else if 2 * (current_size : Int) > 3 * target_size ∧ quality > 30 then
      let r := autoLoop c target_size fuel image (max 30 (quality - 15))
      (r.1, r.2.1, r.2.2 + 1)
    else if (current_size : Int) > target_size ∧ quality > 20 then
      let r := autoLoop c target_size fuel image (max 20 (quality - 5))
      (r.1, r.2.1, r.2.2 + 1)
    else
      let sd := c.scaledDim image target_size current_size
      let new_width := max 300 sd.1
      let new_height := max 200 sd.2
      if new_width < image.width ∧ new_height < image.height then
        let r := autoLoop c target_size fuel (py_resize c image new_width new_height)
          (min 85 (quality + 10))
        (r.1, r.2.1, r.2.2 + 1)
      else
        (image, quality, 1)

/-- Method _process_auto_mode: force webp output and the three
optimization flags on the settings, auto-orient and pre-resize, run the
quality search starting at 95 with 10 iterations, and record the final
quality (and compression.enabled) back into the settings. -/
def process_auto_mode (c : Codec) (image0 : Img) (settings0 : Settings) : Img × Settings :=
  let target_size := settings0.targetFileSize
  let settings :=
    { settings0 with
      format.outputFormat := "webp"
      optimization.removeMetadata := true
      optimization.autoOrient := true
      optimization.progressive := true }
  let image := auto_pre_image c image0
  let r := autoLoop c target_size 10 image 95
  let settings :=
    { settings with
      compression.quality := r.2.1
      compression.enabled := true }
  (r.1, settings)

/-- The mode dispatch of process_image (lines 122-137): auto mode runs the
optimizer, manual mode runs auto-orient, explicit resize and bounding-box
compression, each conditional on its own flag, leaving the settings
untouched. -/
def pipeline_image (c : Codec) (image0 : Img) (ps : Settings) : Img × Settings :=
  if ps.mode == "auto" then
    process_auto_mode c image0 ps
  else
    let image := if ps.optimization.autoOrient then auto_orient c image0 else image0
    let image := if ps.resize.enabled then resize_image c image ps.resize else image
    let image := if ps.compression.enabled then compress_image c image ps.compression else image
    (image, ps)

/-- The image that process_image hands to the final save call: the
pipeline output, passed through the metadata-removal block exactly when
the (possibly auto-mode-updated) settings have removeMetadata set. -/
def saved_image (c : Codec) (image0 : Img) (ps : Settings) : Img :=
  let r := pipeline_image c image0 ps
  if r.2.optimization.removeMetadata then strip_metadata c r.1 else r.1

/-- Round half to even (Python round) on an exact rational. -/
def roundHalfEven (q : ℚ) : Int :=
  let f := q.floor
  if q - f < 1 / 2 then f
  else if 1 / 2 < q - f then f + 1
  else if f % 2 = 0 then f else f + 1

/-- Python round(x, 2) on an exact rational. -/
def pyRound2 (q : ℚ) : ℚ :=
  (roundHalfEven (q * 100) : ℚ) / 100

/-- The success record assembled at the end of process_image. -/
structure SuccessRecord where
  output_path : String
  output_filename : String
  original_format : Option String
  original_size : Nat × Nat
  original_file_size : Nat
  processed_format : String
  processed_size : Nat × Nat
  processed_file_size : Nat
  settings_used : Settings
  compression_ratio : ℚ
deriving Repr, DecidableEq

/-- Lines 115-204 of process_image after the input has been decoded:
capture original format/size/re-encoded byte size, run the mode dispatch,
resolve the output format and filename, strip metadata when requested,
save (the only remaining fallible step), and assemble the record.
compression_ratio is round((1 - final / original) * 100, 2) with the
re-encoded original size as denominator, or 0 when that size is 0. -/
def assemble_result (c : Codec) (inp : InputSrc) (settings? : Option Override)
    (output_filename? : Option String) (image0 : Img) : Except PyErr SuccessRecord :=
  let processing_settings := match settings? with
    | none => DEFAULT_SETTINGS
    | some ov => merge_settings DEFAULT_SETTINGS ov
  let original_filename := match inp with
    | InputSrc.memStream _ => "image_" ++ c.uuidHex
    | InputSrc.filePath stem _ => stem
  let original_format := image0.format
  let original_size := (image0.width, image0.height)
  let original_file_size := get_image_size c image0
  let pr := pipeline_image c image0 processing_settings
  let processing_settings := pr.2
  let output_format := determine_output_format original_format processing_settings.format
  let output_filename := match output_filename? with
    | some f => f
    | none =>
      original_filename ++ "_" ++ toString c.timestampMs ++ "." ++
        (if output_format != "JPEG" then pyLower output_format else "jpg")
  let output_path := c.outputDir ++ "/" ++ output_filename
  let save_kwargs := get_save_kwargs output_format processing_settings
  let image := saved_image c image0 (pr.2)
  let save_all := output_format == "GIF" && image.animated
  (c.saveFile output_path image output_format save_kwargs save_all).map fun final_file_size =>
    { output_path := output_path
      output_filename := output_filename
      original_format := original_format
      original_size := original_size
      original_file_size := original_file_size
      processed_format := output_format
      processed_size := (image.width, image.height)
      processed_file_size := final_file_size
      settings_used := processing_settings
      compression_ratio :=
        if 0 < original_file_size then
          pyRound2 ((1 - (final_file_size : ℚ) / (original_file_size : ℚ)) * 100)
        else 0 }

/-- The body of the try block of process_image: settings merge, decode,
then assemble_result.  (The merge precedes the decode in the source; the
typed merge cannot raise, so the order is immaterial and the merge is
performed inside assemble_result.) -/
def process_image_body (c : Codec) (inp : InputSrc) (settings? : Option Override)
    (output_filename? : Option String) : Except PyErr SuccessRecord :=
  (c.decode inp).bind (assemble_result c inp settings? output_filename?)

/-- The value process_image actually returns: a success record or the
except-clause record with error message and error type. -/
inductive PResult where
  | ok (r : SuccessRecord)
  | err (error : String) (error_type : String)
deriving Repr, DecidableEq

/-- Method process_image: the whole body runs inside try/except Exception;
a raised exception becomes the record with success False, str(e) and
type(e).d.name. -/
def process_image (c : Codec) (inp : InputSrc) (settings? : Option Override)
    (output_filename? : Option String) : PResult :=
  match process_image_body c inp settings? output_filename? with
  | Except.ok r => PResult.ok r
  | Except.error e => PResult.err e.msg e.kind

/-- A Python value as seen by _deep_merge: either a non-dict value (the
merge treats those opaquely, so an integer atom stands for any scalar) or
a dict, modelled as an insertion-ordered association list. -/
inductive PyVal where
  | atom : Int → PyVal
  | dict : List (String × PyVal) → PyVal
deriving Repr

/-- Python dict assignment result[key] = value: replace the value at the
first occurrence of the key keeping its position, append otherwise. -/
def dictSet : List (String × PyVal) → String → PyVal → List (String × PyVal)
  | [], k, v => [(k, v)]
  | (k', v') :: rest, k, v =>
    if k' == k then (k', v) :: rest else (k', v') :: dictSet rest k v

mutual

/-- The body of _deep_merge's for-loop for one override item: when the key
is present in the accumulated result with a dict value and the override
value is a dict too, assign the recursive merge, otherwise assign the
override value wholesale. -/
def merge_one (result : List (String × PyVal)) (key : String) : PyVal → List (String × PyVal)
  | PyVal.atom a => dictSet result key (PyVal.atom a)
  | PyVal.dict oes =>
    match result.lookup key with
    | some (PyVal.dict bes) => dictSet result key (PyVal.dict (deep_merge bes oes))
    | _ => dictSet result key (PyVal.dict oes)

/-- Method _deep_merge: start from a copy of the base and fold the
override's items in order through merge_one. -/
def deep_merge : List (String × PyVal) → List (String × PyVal) → List (String × PyVal)
  | result, [] => result
  | result, (key, value) :: rest => deep_merge (merge_one result key value) rest

end

/-- The condition of the recursive branch of _deep_merge: the key is
present in the result with a dict value and the override value is a dict. -/
def isBothDict : Option PyVal → PyVal → Bool
  | some (PyVal.dict _), PyVal.dict _ => true
  | _, _ => false

/-- Heap of the four nested dicts of the class attribute DEFAULT_SETTINGS.
The shallow dict copy of DEFAULT_SETTINGS performed by process_image
copies only the top-level dict, so the nested section dicts stay aliased
to these cells until _deep_merge replaces one with a fresh dict. -/
structure Heap where
  defCompression : Compression
  defFormat : FormatSettings
  defOptimization : Optimization
  defResize : ResizeSettings
deriving Repr, DecidableEq

/-- The heap state at import time: the literal DEFAULT_SETTINGS sections. -/
def initHeap : Heap :=
  { defCompression := DEFAULT_SETTINGS.compression
    defFormat := DEFAULT_SETTINGS.format
    defOptimization := DEFAULT_SETTINGS.optimization
    defResize := DEFAULT_SETTINGS.resize }

/-- A reference to a section dict: still aliased to the DEFAULT_SETTINGS
cell, or a fresh dict owned by this invocation. -/
inductive Ptr (α : Type) where
  | shared
  | owned (v : α)
deriving Repr, DecidableEq

/-- Working settings of one process_image invocation in the heap model:
top-level scalars are copied by value, section dicts are pointers. -/
structure WSettings where
  mode : String
  targetFileSize : Int
  compression : Ptr Compression
  format : Ptr FormatSettings
  optimization : Ptr Optimization
  resize : Ptr ResizeSettings
deriving Repr, DecidableEq

/-- Dereference the compression pointer. -/
def readCompression (hp : Heap) : Ptr Compression → Compression
  | Ptr.shared => hp.defCompression
  | Ptr.owned v => v

/-- Dereference the format pointer. -/
def readFormat (hp : Heap) : Ptr FormatSettings → FormatSettings
  | Ptr.shared => hp.defFormat
  | Ptr.owned v => v

/-- Dereference the optimization pointer. -/
def readOptimization (hp : Heap) : Ptr Optimization → Optimization
  | Ptr.shared => hp.defOptimization
  | Ptr.owned v => v

/-- Dereference the resize pointer. -/
def readResize (hp : Heap) : Ptr ResizeSettings → ResizeSettings
  | Ptr.shared => hp.defResize
  | Ptr.owned v => v

/-- In-place update settings[compression][f]: lands on the DEFAULT_SETTINGS
cell when the pointer is still shared. -/
def writeCompression (hp : Heap) (s : WSettings) (f : Compression → Compression) : Heap × WSettings :=
  match s.compression with
  | Ptr.shared => ({ hp with defCompression := f hp.defCompression }, s)
  | Ptr.owned v => (hp, { s with compression := Ptr.owned (f v) })

/-- In-place update settings[format][f]. -/
def writeFormat (hp : Heap) (s : WSettings) (f : FormatSettings → FormatSettings) : Heap × WSettings :=
  match s.format with
  | Ptr.shared => ({ hp with defFormat := f hp.defFormat }, s)
  | Ptr.owned v => (hp, { s with format := Ptr.owned (f v) })

/-- In-place update settings[optimization][f]. -/
def writeOptimization (hp : Heap) (s : WSettings) (f : Optimization → Optimization) : Heap × WSettings :=
  match s.optimization with
  | Ptr.shared => ({ hp with defOptimization := f hp.defOptimization }, s)
  | Ptr.owned v => (hp, { s with optimization := Ptr.owned (f v) })

/-- The shallow dict copy of DEFAULT_SETTINGS taken by process_image:
scalars copied by value, every section still aliased. -/
def shallowCopyDefaults : WSettings :=
  { mode := "auto"
    targetFileSize := 150 * 1024
    compression := Ptr.shared
    format := Ptr.shared
    optimization := Ptr.shared
    resize := Ptr.shared }

/-- _deep_merge of the caller's override into the shallow copy, in the
heap model: a section present in the override is rebuilt as a fresh
(owned) dict merged from the current referent and the override, a section
absent stays aliased; scalar keys are replaced by value. -/
def merge_heap (hp : Heap) (base : WSettings) (o : Override) : WSettings :=
  { mode := o.mode.getD base.mode
    targetFileSize := o.targetFileSize.getD base.targetFileSize
    compression := match o.compression with
      | none => base.compression
      | some co => Ptr.owned (mergeCompression (readCompression hp base.compression) co)
    format := match o.format with
      | none => base.format
      | some fo => Ptr.owned (mergeFormat (readFormat hp base.format) fo)
    optimization := match o.optimization with
      | none => base.optimization
      | some oo => Ptr.owned (mergeOptimization (readOptimization hp base.optimization) oo)
    resize := match o.resize with
      | none => base.resize
      | some ro => Ptr.owned (mergeResize (readResize hp base.resize) ro) }

/-- The settings writes of _process_auto_mode in the heap model, together
with the image transformation they bracket: force webp and the three
optimization flags, run the search, record quality and enabled. -/
def process_auto_mode_heap (c : Codec) (image0 : Img) (hp0 : Heap) (s0 : WSettings) :
    Heap × WSettings × Img × Nat :=
  let target_size := s0.targetFileSize
  let st1 := writeFormat hp0 s0 (fun f => { f with outputFormat := "webp" })
  let st2 := writeOptimization st1.1 st1.2 (fun o => { o with removeMetadata := true })
  let st3 := writeOptimization st2.1 st2.2 (fun o => { o with autoOrient := true })
  let st4 := writeOptimization st3.1 st3.2 (fun o => { o with progressive := true })
  let image := auto_pre_image c image0
  let r := autoLoop c target_size 10 image 95
  let st5 := writeCompression st4.1 st4.2 (fun cd => { cd with quality := r.2.1 })
  let st6 := writeCompression st5.1 st5.2 (fun cd => { cd with enabled := true })
  (st6.1, st6.2, r.1, r.2.1)

/-- The settings slice of process_image in the heap model: shallow copy of
DEFAULT_SETTINGS, deep merge of the caller's overrides, then the auto-mode
writes when mode is auto (manual mode performs no settings writes). -/
def process_settings_heap (c : Codec) (image0 : Img) (settings? : Option Override)
    (hp : Heap) : Heap × WSettings :=
  let ps := shallowCopyDefaults
  let ps := match settings? with
    | none => ps
    | some o => merge_heap hp ps o
  if ps.mode == "auto" then
    let r := process_auto_mode_heap c image0 hp ps
    (r.1, r.2.1)
  else
    (hp, ps)

/-- A concrete 400 by 300 RGB image used to instantiate theorems. -/
def img0 : Img :=
  { width := 400, height := 300, format := some "PNG", mode := "RGB",
    meta := true, pix := 7, animated := false }

/-- A concrete benign codec oracle: every encode measures 0 bytes, EXIF
transposition reports no transform, the file write succeeds with size 0. -/
def codec0 : Codec :=
  { decode := fun _ => Except.ok img0
    encSize := fun _ _ _ => 0
    exifTranspose := fun _ => none
    resample := fun _ _ _ => 0
    compositeWhite := fun _ => 1
    scaledDim := fun _ _ _ => (0, 0)
    saveFile := fun _ _ _ _ _ => Except.ok 0
    uuidHex := "0f"
    timestampMs := 0
    outputDir := "out" }

/-- A codec whose decode raises, to exercise the except clause. -/
def codecFail : Codec :=
  { codec0 with
    decode := fun _ => Except.error { msg := "cannot identify image file", kind := "UnidentifiedImageError" } }

/-- Every run of the auto-mode search loop performs at most as many
encode-and-measure rounds as it has fuel, whatever the oracle, the target
(positive or not), the image and the starting quality. -/
theorem autoLoop_rounds_le_fuel (c : Codec) (t : Int) :
    ∀ (fuel : Nat) (image : Img) (q : Nat), (autoLoop c t fuel image q).2.2 ≤ fuel := by
  intro fuel
  induction fuel with
  | zero => intro image q; simp [autoLoop]
  | succ n ih =>
    intro image q
    simp only [autoLoop]
    split
    · simp
    · split
      · have h := ih image (max 30 (q - 15))
        dsimp only
        omega
      · split
        · have h := ih image (max 20 (q - 5))
          dsimp only
          omega
        · split
          · have h := ih (py_resize c image
              (max 300 (c.scaledDim image t (c.encSize "WEBP" (some q) image)).1)
              (max 200 (c.scaledDim image t (c.encSize "WEBP" (some q) image)).2))
              (min 85 (q + 10))
            dsimp only
            omega
          · simp

/-- The auto-mode search loop never lowers quality below 20. -/
theorem autoLoop_quality_ge (c : Codec) (t : Int) :
    ∀ (fuel : Nat) (image : Img) (q : Nat), 20 ≤ q → 20 ≤ (autoLoop c t fuel image q).2.1 := by
  intro fuel
  induction fuel with
  | zero => intro image q hq; simpa [autoLoop] using hq
  | succ n ih =>
    intro image q hq
    simp only [autoLoop]
    split
    · simpa using hq
    · split
      · have h := ih image (max 30 (q - 15)) (by omega)
        dsimp only
        omega
      · split
        · have h := ih image (max 20 (q - 5)) (by omega)
          dsimp only
          omega
        · split
          · have h := ih (py_resize c image
              (max 300 (c.scaledDim image t (c.encSize "WEBP" (some q) image)).1)
              (max 200 (c.scaledDim image t (c.encSize "WEBP" (some q) image)).2))
              (min 85 (q + 10)) (by omega)
            dsimp only
            omega
          · simpa using hq

/-- The auto-mode search loop either returns an image whose dimensions
satisfy the 300 by 200 floors, or it returns the dimensions it started
with. -/
theorem autoLoop_dims (c : Codec) (t : Int) :
    ∀ (fuel : Nat) (image : Img) (q : Nat),
      (300 ≤ (autoLoop c t fuel image q).1.width ∧ 200 ≤ (autoLoop c t fuel image q).1.height) ∨
      ((autoLoop c t fuel image q).1.width = image.width ∧
        (autoLoop c t fuel image q).1.height = image.height) := by
  intro fuel
  induction fuel with
  | zero => intro image q; right; simp [autoLoop]
  | succ n ih =>
    intro image q
    simp only [autoLoop]
    split
    · right; simp
    · split
      · simpa using ih image (max 30 (q - 15))
      · split
        · simpa using ih image (max 20 (q - 5))
        · split
          · have h := ih (py_resize c image
              (max 300 (c.scaledDim image t (c.encSize "WEBP" (some q) image)).1)
              (max 200 (c.scaledDim image t (c.encSize "WEBP" (some q) image)).2))
              (min 85 (q + 10))
            left
            rcases h with h | h
            · exact h
            · constructor
              · rw [h.1]; simp [py_resize]
              · rw [h.2]; simp [py_resize]
          · right; simp

/-- If a dimension of the starting image is already below its floor, the
auto-mode search loop never resizes: the strict-shrink guard cannot hold
because the floored candidate dimension is at least the floor. -/
theorem autoLoop_dims_frozen (c : Codec) (t : Int) :
    ∀ (fuel : Nat) (image : Img) (q : Nat),
      image.width < 300 ∨ image.height < 200 →
      (autoLoop c t fuel image q).1.width = image.width ∧
        (autoLoop c t fuel image q).1.height = image.height := by
  intro fuel
  induction fuel with
  | zero => intro image q _; simp [autoLoop]
  | succ n ih =>
    intro image q hsmall
    simp only [autoLoop]
    split
    · simp
    · split
      · simpa using ih image (max 30 (q - 15)) hsmall
      · split
        · simpa using ih image (max 20 (q - 5)) hsmall
        · split
          · rename_i hguard
            exfalso
            rcases hsmall with h | h
            · have : 300 ≤ image.width := le_of_lt (lt_of_le_of_lt (le_max_left _ _) hguard.1)
              omega
            · have : 200 ≤ image.height := le_of_lt (lt_of_le_of_lt (le_max_left _ _) hguard.2)
              omega
          · simp

/-- C1: when _process_auto_mode returns, the quality it records in the
settings is at least 20, and the returned image's dimensions satisfy the
300 by 200 floors whenever the image satisfied them when the iteration
began (that is, after auto-orientation and the 2048 pre-resize); when a
dimension was already below its floor at that point, the dimensions are
returned exactly as they were. -/
theorem auto_mode_floor_guarantee (c : Codec) (image : Img) (s : Settings) :
    20 ≤ (process_auto_mode c image s).2.compression.quality ∧
    (300 ≤ (auto_pre_image c image).width ∧ 200 ≤ (auto_pre_image c image).height →
      300 ≤ (process_auto_mode c image s).1.width ∧
        200 ≤ (process_auto_mode c image s).1.height) ∧
    ((auto_pre_image c image).width < 300 ∨ (auto_pre_image c image).height < 200 →
      (process_auto_mode c image s).1.width = (auto_pre_image c image).width ∧
        (process_auto_mode c image s).1.height = (auto_pre_image c image).height) := by
  have e1 : (process_auto_mode c image s).1 =
      (autoLoop c s.targetFileSize 10 (auto_pre_image c image) 95).1 := rfl
  have e2 : (process_auto_mode c image s).2.compression.quality =
      (autoLoop c s.targetFileSize 10 (auto_pre_image c image) 95).2.1 := rfl
  refine ⟨?_, ?_, ?_⟩
  · rw [e2]
    exact autoLoop_quality_ge c s.targetFileSize 10 (auto_pre_image c image) 95 (by omega)
  · intro hfloor
    rw [e1]
    rcases autoLoop_dims c s.targetFileSize 10 (auto_pre_image c image) 95 with h | h
    · exact h
    · rw [h.1, h.2]
      exact hfloor
  · intro hsmall
    rw [e1]
    exact autoLoop_dims_frozen c s.targetFileSize 10 (auto_pre_image c image) 95 hsmall

/-- Witness for auto_mode_floor_guarantee: with the benign oracle, the
400 by 300 image and the default settings, the pre-iteration image is
above the floors and the optimizer returns quality at least 20 and
dimensions above the floors. -/
theorem auto_mode_floor_guarantee_witness :
    (300 ≤ (auto_pre_image codec0 img0).width ∧ 200 ≤ (auto_pre_image codec0 img0).height) ∧
    20 ≤ (process_auto_mode codec0 img0 DEFAULT_SETTINGS).2.compression.quality ∧
    (300 ≤ (process_auto_mode codec0 img0 DEFAULT_SETTINGS).1.width ∧
      200 ≤ (process_auto_mode codec0 img0 DEFAULT_SETTINGS).1.height) :=
  ⟨by decide, (auto_mode_floor_guarantee codec0 img0 DEFAULT_SETTINGS).1,
    (auto_mode_floor_guarantee codec0 img0 DEFAULT_SETTINGS).2.1 (by decide)⟩

/-- C2: for every oracle, every target (including non-positive targets),
every image and every starting quality, the auto-mode search loop as
written (fuel 10, the range(max_iterations) bound) terminates having
performed at most 10 encode-and-measure rounds; in particular the loop
performed by _process_auto_mode (starting quality 95, pre-resized image)
does. -/
theorem auto_loop_round_bound (c : Codec) (target : Int) (image : Img) (q : Nat) :
    (autoLoop c target 10 image q).2.2 ≤ 10 ∧
    (autoLoop c target 10 (auto_pre_image c image) 95).2.2 ≤ 10 :=
  ⟨autoLoop_rounds_le_fuel c target 10 image q,
    autoLoop_rounds_le_fuel c target 10 (auto_pre_image c image) 95⟩

/-- C5 counterexample: processing with no caller overrides in auto mode
under the benign oracle overwrites the class-level DEFAULT_SETTINGS
record in place: its compression quality is 85 before the invocation and
95 after, because the shallow copy left the compression section aliased
and _process_auto_mode assigns the converged quality into it.  So
DEFAULT_SETTINGS is not identical before and after every process_image
invocation. -/
theorem default_settings_aliasing_cex :
    initHeap.defCompression.quality = 85 ∧
    (process_settings_heap codec0 img0 none initHeap).1.defCompression.quality = 95 := by
  constructor
  · rfl
  · decide

/-- C5 amended: when the caller's overrides do provide their own
compression, format and optimization sections, the deep merge rebuilds
those sections as fresh dicts, every in-place write of the Auto-Mode
Optimizer lands on the working copy, and the DEFAULT_SETTINGS heap is
unchanged; moreover the resize section, the mode and the target file size
of the working settings are never mutated by the pipeline in any mode. -/
theorem auto_heap_owned (c : Codec) (image : Img) (hp : Heap) (s : WSettings)
    (cv : Compression) (fv : FormatSettings) (ov : Optimization)
    (hc : s.compression = Ptr.owned cv) (hf : s.format = Ptr.owned fv)
    (ho : s.optimization = Ptr.owned ov) :
    (process_auto_mode_heap c image hp s).1 = hp ∧
    (process_auto_mode_heap c image hp s).2.1.resize = s.resize ∧
    (process_auto_mode_heap c image hp s).2.1.mode = s.mode ∧
    (process_auto_mode_heap c image hp s).2.1.targetFileSize = s.targetFileSize := by
  obtain ⟨mo, tf, cp, fm, op, rz⟩ := s
  simp only at hc hf ho
  subst hc
  subst hf
  subst ho
  exact ⟨rfl, rfl, rfl, rfl⟩

theorem settings_mutation_confined (c : Codec) (image : Img) (o : Override) (hp : Heap)
    (h1 : o.compression.isSome = true) (h2 : o.format.isSome = true)
    (h3 : o.optimization.isSome = true) :
    (process_settings_heap c image (some o) hp).1 = hp ∧
    (process_settings_heap c image (some o) hp).2.resize =
      (merge_heap hp shallowCopyDefaults o).resize ∧
    (process_settings_heap c image (some o) hp).2.mode =
      (merge_heap hp shallowCopyDefaults o).mode ∧
    (process_settings_heap c image (some o) hp).2.targetFileSize =
      (merge_heap hp shallowCopyDefaults o).targetFileSize := by
  rcases Option.isSome_iff_exists.mp h1 with ⟨co, hco⟩
  rcases Option.isSome_iff_exists.mp h2 with ⟨fo, hfo⟩
  rcases Option.isSome_iff_exists.mp h3 with ⟨oo, hoo⟩
  have key : process_settings_heap c image (some o) hp =
      (if ((merge_heap hp shallowCopyDefaults o).mode == "auto") = true then
        ((process_auto_mode_heap c image hp (merge_heap hp shallowCopyDefaults o)).1,
          (process_auto_mode_heap c image hp (merge_heap hp shallowCopyDefaults o)).2.1)
      else (hp, merge_heap hp shallowCopyDefaults o)) := rfl
  have howned := auto_heap_owned c image hp (merge_heap hp shallowCopyDefaults o)
    (mergeCompression (readCompression hp shallowCopyDefaults.compression) co)
    (mergeFormat (readFormat hp shallowCopyDefaults.format) fo)
    (mergeOptimization (readOptimization hp shallowCopyDefaults.optimization) oo)
    (by simp [merge_heap, hco]) (by simp [merge_heap, hfo]) (by simp [merge_heap, hoo])
  by_cases hmode : ((merge_heap hp shallowCopyDefaults o).mode == "auto") = true
  · rw [key, if_pos hmode]
    exact howned
  · rw [key, if_neg hmode]
    exact ⟨rfl, rfl, rfl, rfl⟩

/-- Witness for settings_mutation_confined: overrides supplying (empty)
compression, format and optimization sections leave the default heap
untouched. -/
theorem settings_mutation_confined_witness :
    (Override.mk none none (some {}) (some {}) (some {}) none).compression.isSome = true ∧
    (process_settings_heap codec0 img0
        (some (Override.mk none none (some {}) (some {}) (some {}) none)) initHeap).1 = initHeap :=
  ⟨rfl, (settings_mutation_confined codec0 img0
    (Override.mk none none (some {}) (some {}) (some {}) none) initHeap rfl rfl rfl).1⟩

/-- C4: whenever the merged settings declare auto mode, the pipeline
forces format.outputFormat to webp (which the format resolver then maps
to concrete WEBP whatever the original format was) and forces the
removeMetadata, autoOrient and progressive optimization flags on,
whatever the caller's settings declared for those fields. -/
theorem auto_mode_forces_webp_and_flags (c : Codec) (image : Img) (s : Settings)
    (h : s.mode = "auto") :
    (pipeline_image c image s).2.format.outputFormat = "webp" ∧
    (pipeline_image c image s).2.optimization.removeMetadata = true ∧
    (pipeline_image c image s).2.optimization.autoOrient = true ∧
    (pipeline_image c image s).2.optimization.progressive = true ∧
    ∀ fmt : Option String,
      determine_output_format fmt (pipeline_image c image s).2.format = "WEBP" := by
  have hb : (s.mode == "auto") = true := by simp [h]
  have e : pipeline_image c image s = process_auto_mode c image s := by
    simp [pipeline_image, hb]
  rw [e]
  exact ⟨rfl, rfl, rfl, rfl, fun fmt => rfl⟩

/-- Witness for auto_mode_forces_webp_and_flags at the default settings
(whose mode is auto), the benign oracle and the concrete image. -/
theorem auto_mode_forces_webp_and_flags_witness :
    DEFAULT_SETTINGS.mode = "auto" ∧
    (pipeline_image codec0 img0 DEFAULT_SETTINGS).2.format.outputFormat = "webp" ∧
    (pipeline_image codec0 img0 DEFAULT_SETTINGS).2.optimization.removeMetadata = true ∧
    determine_output_format (some "PNG") (pipeline_image codec0 img0 DEFAULT_SETTINGS).2.format = "WEBP" :=
  ⟨rfl, (auto_mode_forces_webp_and_flags codec0 img0 DEFAULT_SETTINGS rfl).1,
    (auto_mode_forces_webp_and_flags codec0 img0 DEFAULT_SETTINGS rfl).2.1,
    (auto_mode_forces_webp_and_flags codec0 img0 DEFAULT_SETTINGS rfl).2.2.2.2 (some "PNG")⟩

/-- C3: process_image is a total function into result records: for every
oracle, input and settings it either returns the success record of its
body, or, when any stage of the body raises (decode, pipeline, encode,
file write), it returns the record built from the exception's message
str(e) and its error-kind tag type(e).name; no exception escapes. -/
theorem process_image_never_escapes (c : Codec) (inp : InputSrc) (settings? : Option Override)
    (output_filename? : Option String) :
    (∃ r, process_image_body c inp settings? output_filename? = Except.ok r ∧
      process_image c inp settings? output_filename? = PResult.ok r) ∨
    (∃ e, process_image_body c inp settings? output_filename? = Except.error e ∧
      process_image c inp settings? output_filename? = PResult.err e.msg e.kind) := by
  cases h : process_image_body c inp settings? output_filename? with
  | ok r => exact Or.inl ⟨r, rfl, by simp [process_image, h]⟩
  | error e => exact Or.inr ⟨e, rfl, by simp [process_image, h]⟩

/-- A concrete RGBA image (alpha channel present). -/
def imgA : Img :=
  { width := 10, height := 5, format := some "PNG", mode := "RGBA",
    meta := true, pix := 3, animated := false }

/-- C8: when the merged settings have removeMetadata set, the image handed
to the final encode is the metadata-stripped pipeline output, in either
mode (auto mode additionally forces the flag on, so the check performed on
the returned settings still fires); the stripping itself composites an
alpha-carrying image (mode RGBA or LA) onto an opaque white background,
dropping alpha, and rebuilds an alpha-free image with identical pixel
content; both branches leave no auxiliary metadata. -/
theorem metadata_strip_before_save (c : Codec) (image : Img) (ps : Settings)
    (h : ps.optimization.removeMetadata = true) :
    saved_image c image ps = strip_metadata c (pipeline_image c image ps).1 ∧
    (∀ i : Img, (i.mode = "RGBA" ∨ i.mode = "LA") →
      (strip_metadata c i).mode = "RGB" ∧ (strip_metadata c i).pix = c.compositeWhite i ∧
        (strip_metadata c i).meta = false ∧ (strip_metadata c i).width = i.width ∧
        (strip_metadata c i).height = i.height) ∧
    (∀ i : Img, i.mode ≠ "RGBA" → i.mode ≠ "LA" →
      (strip_metadata c i).mode = i.mode ∧ (strip_metadata c i).pix = i.pix ∧
        (strip_metadata c i).meta = false ∧ (strip_metadata c i).width = i.width ∧
        (strip_metadata c i).height = i.height) := by
  refine ⟨?_, ?_, ?_⟩
  · have hrm : (pipeline_image c image ps).2.optimization.removeMetadata = true := by
      by_cases hb : (ps.mode == "auto") = true
      · have e : pipeline_image c image ps = process_auto_mode c image ps := by
          simp [pipeline_image, hb]
        rw [e]
        rfl
      · have e : (pipeline_image c image ps).2 = ps := by
          simp [pipeline_image, hb]
        rw [e]
        exact h
    simp [saved_image, hrm]
  · intro i hi
    have hb : (i.mode == "RGBA" || i.mode == "LA") = true := by
      rcases hi with hi | hi <;> simp [hi]
    simp [strip_metadata, hb]
  · intro i h1 h2
    have hb : (i.mode == "RGBA" || i.mode == "LA") = false := by
      simp [h1, h2]
    simp [strip_metadata, hb]

/-- Witness for metadata_strip_before_save: default settings (which set
removeMetadata), the benign oracle and the concrete RGBA image. -/
theorem metadata_strip_before_save_witness :
    DEFAULT_SETTINGS.optimization.removeMetadata = true ∧
    saved_image codec0 imgA DEFAULT_SETTINGS =
      strip_metadata codec0 (pipeline_image codec0 imgA DEFAULT_SETTINGS).1 ∧
    (strip_metadata codec0 imgA).mode = "RGB" ∧
    (strip_metadata codec0 imgA).meta = false :=
  ⟨rfl, (metadata_strip_before_save codec0 imgA DEFAULT_SETTINGS rfl).1,
    ((metadata_strip_before_save codec0 imgA DEFAULT_SETTINGS rfl).2.1 imgA (Or.inl rfl)).1,
    ((metadata_strip_before_save codec0 imgA DEFAULT_SETTINGS rfl).2.1 imgA (Or.inl rfl)).2.2.1⟩

/-- C7: the format resolver returns the original format itself when the
requested name is original and the original is non-empty, and JPEG when
the original is unknown (None) or empty; the recognized names jpeg, jpg,
png, webp and gif map to their concrete codec formats; every name whose
lowercasing is not a key of OUTPUT_FORMATS falls back to WEBP. -/
theorem determine_output_format_spec :
    (∀ (x : String) (b : Bool), ¬ x = "" →
      determine_output_format (some x) { outputFormat := "original", convertToWebp := b } = x) ∧
    (∀ b : Bool,
      determine_output_format none { outputFormat := "original", convertToWebp := b } = "JPEG") ∧
    (∀ b : Bool,
      determine_output_format (some "") { outputFormat := "original", convertToWebp := b } = "JPEG") ∧
    (∀ (X : Option String) (b : Bool),
      determine_output_format X { outputFormat := "jpeg", convertToWebp := b } = "JPEG" ∧
      determine_output_format X { outputFormat := "jpg", convertToWebp := b } = "JPEG" ∧
      determine_output_format X { outputFormat := "png", convertToWebp := b } = "PNG" ∧
      determine_output_format X { outputFormat := "webp", convertToWebp := b } = "WEBP" ∧
      determine_output_format X { outputFormat := "gif", convertToWebp := b } = "GIF") ∧
    (∀ (X : Option String) (b : Bool) (req : String),
      pyLower req ∉ ["jpeg", "jpg", "png", "webp", "gif", "original"] →
      determine_output_format X { outputFormat := req, convertToWebp := b } = "WEBP") := by
  refine ⟨?_, ?_, ?_, ?_, ?_⟩
  · intro x b hx
    show (if (pyLower "original" == "original") = true then pyOrStr (some x) "JPEG"
      else ((OUTPUT_FORMATS.lookup (pyLower "original")).getD (some "WEBP")).getD "WEBP") = x
    rw [if_pos (by decide)]
    have hempty : x.isEmpty = false := by
      rw [← String.isEmpty_iff] at hx
      simpa using hx
    simp [pyOrStr, hempty]
  · intro b
    rfl
  · intro b
    rfl
  · intro X b
    exact ⟨rfl, rfl, rfl, rfl, rfl⟩
  · intro X b req hreq
    simp only [List.mem_cons, List.not_mem_nil, or_false, not_or] at hreq
    obtain ⟨n1, n2, n3, n4, n5, n6⟩ := hreq
    have b1 : (pyLower req == "jpeg") = false := by simp [n1]
    have b2 : (pyLower req == "jpg") = false := by simp [n2]
    have b3 : (pyLower req == "png") = false := by simp [n3]
    have b4 : (pyLower req == "webp") = false := by simp [n4]
    have b5 : (pyLower req == "gif") = false := by simp [n5]
    have b6 : (pyLower req == "original") = false := by simp [n6]
    simp [determine_output_format, OUTPUT_FORMATS, List.lookup, b1, b2, b3, b4, b5, b6]

/-- Witness for determine_output_format_spec at concrete formats. -/
theorem determine_output_format_spec_witness :
    ¬ "PNG" = "" ∧
    determine_output_format (some "PNG") { outputFormat := "original", convertToWebp := true } = "PNG" ∧
    determine_output_format none { outputFormat := "original", convertToWebp := true } = "JPEG" ∧
    determine_output_format (some "GIF") { outputFormat := "webp", convertToWebp := false } = "WEBP" ∧
    pyLower "avif" ∉ ["jpeg", "jpg", "png", "webp", "gif", "original"] ∧
    determine_output_format (some "PNG") { outputFormat := "avif", convertToWebp := true } = "WEBP" :=
  ⟨by decide, determine_output_format_spec.1 "PNG" true (by decide),
    determine_output_format_spec.2.1 true,
    (determine_output_format_spec.2.2.2.1 (some "GIF") false).2.2.2.1,
    by decide,
    determine_output_format_spec.2.2.2.2 (some "PNG") true "avif" (by decide)⟩

/-- Looking up the assigned key after a Python dict assignment yields the
assigned value. -/
theorem lookup_dictSet_self (k : String) (v : PyVal) :
    ∀ es : List (String × PyVal), (dictSet es k v).lookup k = some v := by
  intro es
  induction es with
  | nil => simp [dictSet, List.lookup]
  | cons hd tl ih =>
    obtain ⟨k1, v1⟩ := hd
    by_cases hk : k1 = k
    · subst hk
      simp [dictSet, List.lookup]
    · have h1 : (k1 == k) = false := by simp [hk]
      have h2 : (k == k1) = false := by simp [Ne.symm hk]
      simp [dictSet, h1, List.lookup, h2, ih]

/-- A Python dict assignment leaves lookups at other keys unchanged. -/
theorem lookup_dictSet_ne (key k : String) (v : PyVal) (hne : key ≠ k) :
    ∀ es : List (String × PyVal), (dictSet es key v).lookup k = es.lookup k := by
  intro es
  induction es with
  | nil =>
    have h2 : (k == key) = false := by simp [Ne.symm hne]
    simp [dictSet, List.lookup, h2]
  | cons hd tl ih =>
    obtain ⟨k1, v1⟩ := hd
    by_cases hk : k1 = key
    · subst hk
      have h2 : (k == k1) = false := by simp [Ne.symm hne]
      simp [dictSet, List.lookup, h2]
    · have h1 : (k1 == key) = false := by simp [hk]
      simp [dictSet, h1, List.lookup, ih]

/-- Unfolding lemma: merging an empty override returns the base. -/
theorem deep_merge_nil (D : List (String × PyVal)) : deep_merge D [] = D := by
  rw [deep_merge]

/-- Unfolding lemma: one step of the override fold of _deep_merge. -/
theorem deep_merge_cons (D : List (String × PyVal)) (key : String) (value : PyVal)
    (rest : List (String × PyVal)) :
    deep_merge D ((key, value) :: rest) = deep_merge (merge_one D key value) rest := by
  rw [deep_merge]

/-- One fold step of _deep_merge always assigns some value at the
override's key, whichever branch it takes. -/
theorem merge_one_dictSet (D : List (String × PyVal)) (key : String) (value : PyVal) :
    ∃ w : PyVal, merge_one D key value = dictSet D key w := by
  cases value with
  | atom a => exact ⟨PyVal.atom a, by rw [merge_one]⟩
  | dict oes =>
    cases hl : D.lookup key with
    | none => exact ⟨PyVal.dict oes, by rw [merge_one, hl]⟩
    | some u =>
      cases u with
      | atom a => exact ⟨PyVal.dict oes, by rw [merge_one, hl]⟩
      | dict bes => exact ⟨PyVal.dict (deep_merge bes oes), by rw [merge_one, hl]⟩

/-- Keys that do not occur in the override are looked up in the merge
exactly as in the base. -/
theorem deep_merge_lookup_absent (k : String) :
    ∀ (O D : List (String × PyVal)), (∀ p ∈ O, p.1 ≠ k) →
      (deep_merge D O).lookup k = D.lookup k := by
  intro O
  induction O with
  | nil => intro D _; rw [deep_merge_nil]
  | cons hd tl ih =>
    intro D h
    obtain ⟨key, value⟩ := hd
    have hkey : key ≠ k := h (key, value) (List.mem_cons_self _ _)
    obtain ⟨w, hw⟩ := merge_one_dictSet D key value
    rw [deep_merge_cons, hw, ih (dictSet D key w) (fun p hp => h p (List.mem_cons_of_mem _ hp)),
      lookup_dictSet_ne key k w hkey]

/-- When the base and a duplicate-free override both hold nested dicts at
a key, the merge holds their recursive merge there. -/
theorem deep_merge_lookup_both (k : String) :
    ∀ (O D bes oes : List (String × PyVal)),
      (O.map Prod.fst).Nodup → D.lookup k = some (PyVal.dict bes) →
      O.lookup k = some (PyVal.dict oes) →
      (deep_merge D O).lookup k = some (PyVal.dict (deep_merge bes oes)) := by
  intro O
  induction O with
  | nil => intro D bes oes _ _ hO; simp [List.lookup] at hO
  | cons hd tl ih =>
    intro D bes oes hnd hD hO
    obtain ⟨key, value⟩ := hd
    by_cases hk : key = k
    · subst hk
      have hv : value = PyVal.dict oes := by
        simpa [List.lookup] using hO
      subst hv
      have htl : ∀ p ∈ tl, p.1 ≠ key := by
        intro p hp hpk
        have : key ∈ tl.map Prod.fst := hpk ▸ List.mem_map_of_mem Prod.fst hp
        exact (List.nodup_cons.mp (by simpa using hnd)).1 this
      have hstep : merge_one D key (PyVal.dict oes) =
          dictSet D key (PyVal.dict (deep_merge bes oes)) := by
        rw [merge_one, hD]
      rw [deep_merge_cons, hstep, deep_merge_lookup_absent key tl _ htl, lookup_dictSet_self]
    · have h2 : (k == key) = false := by simp [Ne.symm hk]
      have hO' : tl.lookup k = some (PyVal.dict oes) := by
        simpa [List.lookup, h2] using hO
      obtain ⟨w, hw⟩ := merge_one_dictSet D key value
      rw [deep_merge_cons, hw]
      exact ih (dictSet D key w) bes oes (by simpa using (List.nodup_cons.mp (by simpa using hnd)).2)
        (by rw [lookup_dictSet_ne key k w hk]; exact hD) hO'

/-- When the override holds a value at a key and the recursive condition
of _deep_merge does not apply there, the override value replaces the base
value wholesale. -/
theorem deep_merge_lookup_replace (k : String) :
    ∀ (O D : List (String × PyVal)) (v : PyVal),
      (O.map Prod.fst).Nodup → O.lookup k = some v →
      isBothDict (D.lookup k) v = false →
      (deep_merge D O).lookup k = some v := by
  intro O
  induction O with
  | nil => intro D v _ hO _; simp [List.lookup] at hO
  | cons hd tl ih =>
    intro D v hnd hO hnb
    obtain ⟨key, value⟩ := hd
    by_cases hk : key = k
    · subst hk
      have hv : value = v := by
        simpa [List.lookup] using hO
      subst hv
      have htl : ∀ p ∈ tl, p.1 ≠ key := by
        intro p hp hpk
        have : key ∈ tl.map Prod.fst := hpk ▸ List.mem_map_of_mem Prod.fst hp
        exact (List.nodup_cons.mp (by simpa using hnd)).1 this
      have hstep : merge_one D key value = dictSet D key value := by
        cases value with
        | atom a => rw [merge_one]
        | dict oes =>
          cases hl : D.lookup key with
          | none => rw [merge_one, hl]
          | some u =>
            cases u with
            | atom a => rw [merge_one, hl]
            | dict bes =>
              rw [hl] at hnb
              simp [isBothDict] at hnb
      rw [deep_merge_cons, hstep, deep_merge_lookup_absent key tl _ htl, lookup_dictSet_self]
    · have h2 : (k == key) = false := by simp [Ne.symm hk]
      have hO' : tl.lookup k = some v := by
        simpa [List.lookup, h2] using hO
      obtain ⟨w, hw⟩ := merge_one_dictSet D key value
      rw [deep_merge_cons, hw]
      refine ih (dictSet D key w) v (by simpa using (List.nodup_cons.mp (by simpa using hnd)).2) hO' ?_
      rw [lookup_dictSet_ne key k w hk]
      exact hnb

/-- C6: merging an empty override returns the defaults unchanged, keys
absent from a (duplicate-free) override keep their default values, a key
at which both sides hold nested dicts is merged recursively (so sibling
keys inside that section keep their defaults, by the absent-keys clause
applied to the inner merge), and a key present in the override at which
the both-dicts condition fails is replaced wholesale by the override
value. -/
theorem deep_merge_spec :
    (∀ D : List (String × PyVal), deep_merge D [] = D) ∧
    (∀ (O D : List (String × PyVal)) (k : String), (∀ p ∈ O, p.1 ≠ k) →
      (deep_merge D O).lookup k = D.lookup k) ∧
    (∀ (O D bes oes : List (String × PyVal)) (k : String),
      (O.map Prod.fst).Nodup → D.lookup k = some (PyVal.dict bes) →
      O.lookup k = some (PyVal.dict oes) →
      (deep_merge D O).lookup k = some (PyVal.dict (deep_merge bes oes))) ∧
    (∀ (O D : List (String × PyVal)) (v : PyVal) (k : String),
      (O.map Prod.fst).Nodup → O.lookup k = some v →
      isBothDict (D.lookup k) v = false →
      (deep_merge D O).lookup k = some v) :=
  ⟨fun D => deep_merge_nil D,
    fun O D k h => deep_merge_lookup_absent k O D h,
    fun O D bes oes k hnd hD hO => deep_merge_lookup_both k O D bes oes hnd hD hO,
    fun O D v k hnd hO hnb => deep_merge_lookup_replace k O D v hnd hO hnb⟩

/-- Concrete base dict for the deep-merge witness: a nested section a with
two keys, and a scalar d. -/
def mergeD0 : List (String × PyVal) :=
  [("a", PyVal.dict [("b", PyVal.atom 0), ("c", PyVal.atom 2)]), ("d", PyVal.atom 3)]

/-- Concrete override touching only key b under a. -/
def mergeO0 : List (String × PyVal) :=
  [("a", PyVal.dict [("b", PyVal.atom 1)])]

/-- Concrete override replacing the scalar d wholesale. -/
def mergeO1 : List (String × PyVal) :=
  [("d", PyVal.atom 9)]

/-- Witness for deep_merge_spec at concrete dicts, instantiating all four
clauses. -/
theorem deep_merge_spec_witness :
    deep_merge mergeD0 [] = mergeD0 ∧
    (deep_merge mergeD0 mergeO0).lookup "d" = mergeD0.lookup "d" ∧
    (deep_merge mergeD0 mergeO0).lookup "a" =
      some (PyVal.dict (deep_merge [("b", PyVal.atom 0), ("c", PyVal.atom 2)]
        [("b", PyVal.atom 1)])) ∧
    (deep_merge mergeD0 mergeO1).lookup "d" = some (PyVal.atom 9) :=
  ⟨deep_merge_spec.1 mergeD0,
    deep_merge_spec.2.1 mergeO0 mergeD0 "d" (by decide),
    deep_merge_spec.2.2.1 mergeO0 mergeD0 [("b", PyVal.atom 0), ("c", PyVal.atom 2)]
      [("b", PyVal.atom 1)] "a" (by decide) rfl rfl,
    deep_merge_spec.2.2.2 mergeO1 mergeD0 (PyVal.atom 9) "d" (by decide) rfl rfl⟩

/-- Resize settings requesting only a target width, keeping aspect. -/
def widthOnly (tw : Nat) : ResizeSettings :=
  { enabled := true, width := some tw, height := none, maintainAspectRatio := true }

/-- Resize settings requesting only a target height, keeping aspect. -/
def heightOnly (th : Nat) : ResizeSettings :=
  { enabled := true, width := none, height := some th, maintainAspectRatio := true }

/-- A concrete 1600 by 1200 input for the manual-resize scenario. -/
def imgM : Img :=
  { width := 1600, height := 1200, format := some "JPEG", mode := "RGB",
    meta := true, pix := 5, animated := false }

/-- The scenario override: manual mode, resize enabled to width 800
keeping aspect ratio. -/
def ovManual : Override :=
  { mode := some "manual"
    resize := some { enabled := some true, width := some (some 800), maintainAspectRatio := some true } }

/-- C9: _resize_image with maintainAspectRatio and exactly one target
dimension preserves the aspect ratio up to integer rounding: the free
dimension is the exact rational scale floored, so it is the largest value
whose ratio to the fixed dimension does not exceed the original ratio; and
the concrete manual-mode pipeline scenario (1600 by 1200 input, resize to
width 800) produces exactly 800 by 600. -/
theorem resize_aspect_ratio (c : Codec) (image : Img) (tw : Nat)
    (hw : 0 < image.width) (hh : 0 < image.height) (htw : 0 < tw) :
    ((resize_image c image (widthOnly tw)).width = tw ∧
      (resize_image c image (widthOnly tw)).height = image.height * tw / image.width ∧
      (resize_image c image (widthOnly tw)).height * image.width ≤ image.height * tw ∧
      image.height * tw < ((resize_image c image (widthOnly tw)).height + 1) * image.width) ∧
    ((resize_image c image (heightOnly tw)).height = tw ∧
      (resize_image c image (heightOnly tw)).width = image.width * tw / image.height ∧
      (resize_image c image (heightOnly tw)).width * image.height ≤ image.width * tw ∧
      image.width * tw < ((resize_image c image (heightOnly tw)).width + 1) * image.height) ∧
    ((pipeline_image codec0 imgM (merge_settings DEFAULT_SETTINGS ovManual)).1.width = 800 ∧
      (pipeline_image codec0 imgM (merge_settings DEFAULT_SETTINGS ovManual)).1.height = 600) := by
  have htw' : tw ≠ 0 := Nat.pos_iff_ne_zero.mp htw
  have ew : (resize_image c image (widthOnly tw)).width = tw ∧
      (resize_image c image (widthOnly tw)).height = image.height * tw / image.width := by
    constructor <;> simp [resize_image, widthOnly, truthyN, htw', py_resize]
  have eh : (resize_image c image (heightOnly tw)).height = tw ∧
      (resize_image c image (heightOnly tw)).width = image.width * tw / image.height := by
    constructor <;> simp [resize_image, heightOnly, truthyN, htw', py_resize]
  refine ⟨⟨ew.1, ew.2, ?_, ?_⟩, ⟨eh.1, eh.2, ?_, ?_⟩, by decide, by decide⟩
  · rw [ew.2]
    exact Nat.div_mul_le_self (image.height * tw) image.width
  · rw [ew.2, Nat.add_mul, Nat.one_mul]
    exact Nat.lt_div_mul_add hw
  · rw [eh.2]
    exact Nat.div_mul_le_self (image.width * tw) image.height
  · rw [eh.2, Nat.add_mul, Nat.one_mul]
    exact Nat.lt_div_mul_add hh

/-- Witness for resize_aspect_ratio at the 1600 by 1200 image with target
width 800. -/
theorem resize_aspect_ratio_witness :
    0 < imgM.width ∧ 0 < imgM.height ∧ 0 < (800 : Nat) ∧
    (resize_image codec0 imgM (widthOnly 800)).width = 800 ∧
    (resize_image codec0 imgM (widthOnly 800)).height = imgM.height * 800 / imgM.width :=
  ⟨by decide, by decide, by decide,
    (resize_aspect_ratio codec0 imgM 800 (by decide) (by decide) (by decide)).1.1,
    (resize_aspect_ratio codec0 imgM 800 (by decide) (by decide) (by decide)).1.2.1⟩

/-- Generic inversion for a successful Except.map. -/
theorem except_map_ok {α β ε : Type} (g : α → β) (e : Except ε α) (r : β)
    (h : e.map g = Except.ok r) : ∃ n, e = Except.ok n ∧ r = g n := by
  cases e with
  | error err => simp [Except.map] at h
  | ok n => exact ⟨n, rfl, by simpa [Except.map] using h.symm⟩

/-- C10: the original file_size reported in the success record is the byte
length of re-encoding the freshly decoded image in its own format (JPEG
when the format is unknown), as produced by _get_image_size, not the byte
size of the input file or stream; and compression_ratio is
round((1 - final / that) * 100, 2), or 0 when that re-encoded size is 0. -/
theorem original_file_size_is_reencode (c : Codec) (inp : InputSrc)
    (settings? : Option Override) (output_filename? : Option String)
    (image : Img) (r : SuccessRecord)
    (hdec : c.decode inp = Except.ok image)
    (hok : process_image_body c inp settings? output_filename? = Except.ok r) :
    r.original_file_size = c.encSize (pyOrStr image.format "JPEG") none image ∧
    r.compression_ratio =
      (if 0 < r.original_file_size then
        pyRound2 ((1 - (r.processed_file_size : ℚ) / (r.original_file_size : ℚ)) * 100)
      else 0) := by
  have hbody : assemble_result c inp settings? output_filename? image = Except.ok r := by
    have h := hok
    rw [process_image_body, hdec] at h
    simpa [Except.bind] using h
  simp only [assemble_result] at hbody
  obtain ⟨n, hsv, hr⟩ := except_map_ok _ _ _ hbody
  subst hr
  exact ⟨rfl, rfl⟩

/-- The record produced by the benign oracle on the concrete image with no
overrides: every encode measures 0 bytes, so the re-encoded original size
is 0 and the ratio falls to its 0 branch. -/
def recW : SuccessRecord :=
  { output_path := "out/pic_0.webp"
    output_filename := "pic_0.webp"
    original_format := some "PNG"
    original_size := (400, 300)
    original_file_size := 0
    processed_format := "WEBP"
    processed_size := (400, 300)
    processed_file_size := 0
    settings_used :=
      { mode := "auto"
        targetFileSize := 150 * 1024
        compression := { enabled := true, quality := 95, maxWidth := 1920, maxHeight := 1080 }
        format := { outputFormat := "webp", convertToWebp := true }
        optimization := { removeMetadata := true, progressive := true, autoOrient := true }
        resize := { enabled := false, width := none, height := none, maintainAspectRatio := true } }
    compression_ratio := 0 }

/-- Witness for original_file_size_is_reencode: a full concrete run under
the benign oracle. -/
theorem original_file_size_is_reencode_witness :
    codec0.decode (InputSrc.filePath "pic" 12345) = Except.ok img0 ∧
    process_image_body codec0 (InputSrc.filePath "pic" 12345) none none = Except.ok recW ∧
    recW.original_file_size = codec0.encSize (pyOrStr img0.format "JPEG") none img0 ∧
    recW.compression_ratio =
      (if 0 < recW.original_file_size then
        pyRound2 ((1 - (recW.processed_file_size : ℚ) / (recW.original_file_size : ℚ)) * 100)
      else 0) := by
  have hbody : process_image_body codec0 (InputSrc.filePath "pic" 12345) none none =
      Except.ok recW := rfl
  exact ⟨rfl, hbody,
    (original_file_size_is_reencode codec0 (InputSrc.filePath "pic" 12345) none none img0 recW
      rfl hbody).1,
    (original_file_size_is_reencode codec0 (InputSrc.filePath "pic" 12345) none none img0 recW
      rfl hbody).2⟩

end ImageProc
